import Mathlib

/-!
Verification of the EcoRotas route-generation engine.

This file gives a shallow embedding, in Lean 4, of the algorithmic core of
the EcoRotasSystem-FTL repository:

* `src/src/utils/geographic.py` — `GeographicCalculator.nearest_neighbor_route`,
  `calculate_route_distance`, `calculate_distance` (the haversine distance);
* `src/src/core/route_optimizer.py` — `RouteOptimizer.generate_routes` and its
  helpers `_create_geographic_clusters`, `_generate_cluster_routes`,
  `_create_route_from_locations`, `_calculate_route_scores`,
  `_select_best_routes`;
* `src/src/utils/validators.py` — `DataValidator.validate_route_data`,
  `validate_user_profile`;
* `src/src/core/ecoturismo_system.py` — `gerar_rotas_personalizadas_ml`;
* `src/src/ml/ml_recommendation_engine.py` — `prever_rating_usuario`.

Numeric values are modelled by `ℚ` (Python floats written as decimal
literals are embedded as the exact corresponding rationals).  Calls into
external libraries (the `haversine` package, `sklearn.cluster.KMeans`,
`pandas.DataFrame.sample`, `numpy.random.randint`, the trained sklearn
regressor and scaler) are modelled as explicit oracle parameters, so every
source of randomness or foreign computation is an explicit input of the
embedded functions.
-/

namespace EcoRota

/-- A geographic coordinate `(latitude, longitude)`. -/
abbrev Coord := ℚ × ℚ

/-- One catalog record, with the columns required by the system
(`config/settings.py`, `DataConfig.required_columns`). -/
structure Site where
  nome : String
  provincia : String
  latitude : ℚ
  longitude : ℚ
  fragilidade : ℚ
  capacidade_diaria : ℚ
  taxa_aoa : ℚ
  tipo_ecosistema : String
  descricao : String
deriving DecidableEq, Inhabited, Repr

/-! ### The nearest-neighbour tour (`geographic.py`, lines 119-178)

The inner `for i in range(n)` scan of the Python code keeps
`min_distance` and `next_index`, updating them on a strict `<`; it is
embedded as a left fold with accumulator `Option (distance × index)`
(`none` plays the role of `min_distance = inf, next_index = -1`). -/

/-- One iteration of the scan
`if not visited[i]: ... if distance < min_distance: update`. -/
def nnAccStep (f : ℕ → ℚ) (acc : Option (ℚ × ℕ)) (i : ℕ) : Option (ℚ × ℕ) :=
  match acc with
  | none => some (f i, i)
  | some (m, j) => if f i < m then some (f i, i) else some (m, j)

/-- The full scan over the unvisited candidates: the chosen `next_index`
(`none` when there is no candidate, i.e. `next_index` stays `-1`). -/
def nextIndex (f : ℕ → ℚ) (cands : List ℕ) : Option ℕ :=
  (cands.foldl (nnAccStep f) none).map Prod.snd

/-- The indices `i ∈ range n` with `not visited[i]`, in increasing order,
exactly as the Python `for i in range(n)` visits them. -/
def unvisitedCands (n : ℕ) (visited : List ℕ) : List ℕ :=
  (List.range n).filter (fun i => !(visited.contains i))

/-- The `for _ in range(n - 1)` loop of `nearest_neighbor_route`.  When
`next_index` stays `-1` the Python loop appends nothing on this and on all
remaining iterations (the visited set no longer changes), so the embedding
returns `[]` in that case. -/
def nnLoop (D : ℕ → ℕ → ℚ) (n : ℕ) : ℕ → ℕ → List ℕ → List ℕ
  | 0, _, _ => []
  | steps + 1, current, visited =>
    match nextIndex (D current) (unvisitedCands n visited) with
    | none => []
    | some nxt => nxt :: nnLoop D n steps nxt (visited ++ [nxt])

/-- `GeographicCalculator.nearest_neighbor_route` (geographic.py 119-178),
parametrised by the pairwise distance `d` (the haversine call).  Note the
guard: any input of length at most 1, the empty list included, returns
`[0]` and ignores `start_index`. -/
def nearest_neighbor_route (d : Coord → Coord → ℚ) (coordinates : List Coord)
    (start_index : ℕ) : List ℕ :=
  if coordinates.length ≤ 1 then [0]
  else
    let n := coordinates.length
    let D : ℕ → ℕ → ℚ := fun a b =>
      d (coordinates.getD a default) (coordinates.getD b default)
    start_index :: nnLoop D n (n - 1) start_index [start_index]

/-- `GeographicCalculator.calculate_route_distance` (geographic.py 180-209):
the sum of the distances between consecutive indices of the route. -/
def calculate_route_distance (d : Coord → Coord → ℚ) (coordinates : List Coord)
    (route_indices : List ℕ) : ℚ :=
  ((route_indices.zip route_indices.tail).map (fun p =>
    d (coordinates.getD p.1 default) (coordinates.getD p.2 default))).sum

/-! ### Configuration constants (`config/settings.py`) -/

/-- `RouteConfig.score_weights['fragilidade']` (settings.py line 109). -/
def score_weight_fragilidade : ℚ := 45 / 100

/-- `RouteConfig.score_weights['distancia']` (settings.py line 110). -/
def score_weight_distancia : ℚ := 35 / 100

/-- `RouteConfig.score_weights['custo']` (settings.py line 111). -/
def score_weight_custo : ℚ := 20 / 100

/-- `MLConfig.clustering_params['n_clusters']` (settings.py line 62). -/
def clustering_n_clusters : ℕ := 6

/-- `RouteConfig.route_clustering` (settings.py line 115). -/
def route_clustering : Bool := true

/-- `RouteConfig.default_max_locations` (settings.py line 98). -/
def default_max_locations : ℕ := 6

/-- `RouteConfig.default_num_routes` (settings.py line 100). -/
def default_num_routes : ℕ := 5

/-- Python's `round(x, k)`: rounding to `k` decimal places.  Python rounds
ties to even on the binary representation of the float; any
round-to-nearest satisfies `|roundTo k x - x| ≤ 1 / (2 * 10 ^ k)`, which is
the only property the proofs use, so the embedding uses Mathlib's `round`. -/
def roundTo (k : ℕ) (x : ℚ) : ℚ := (round (x * (10 : ℚ) ^ k) : ℤ) / (10 : ℚ) ^ k

/-! ### The route optimizer (`route_optimizer.py`) -/

/-- The route dictionary built by `_create_route_from_locations`
(route_optimizer.py 272-281); the `score` key is added later by
`_calculate_route_scores` (line 313) and is defaulted to `0` until then. -/
structure RouteData where
  nome : String
  locais : List Site
  num_locais : ℕ
  distancia_total_km : ℚ
  custo_total_aoa : ℚ
  fragilidade_media : ℚ
  provincias : List String
  tipos_ecosistema : List String
  score : ℚ := 0
deriving DecidableEq, Repr

/-- The external calls made by the optimizer, passed in explicitly:
`dist` is `haversine` (via `GeographicCalculator.calculate_distance`),
`kmeansLabels df k` is `KMeans(n_clusters=k, ...).fit_predict` on the
feature matrix of `df`, `sample df n seed` is
`df.sample(n=n, random_state=seed)`, and `randint c` is the value of the
`c`-th call to `np.random.randint(1000)` made by the seeded global
generator. -/
structure Oracles where
  dist : Coord → Coord → ℚ
  kmeansLabels : List Site → ℕ → List ℕ
  sample : List Site → ℕ → ℕ → List Site
  randint : ℕ → ℕ

/-- What `pandas.DataFrame.sample(n=n, random_state=seed)` guarantees:
it returns `min n (df.length)` distinct rows of `df` (sampling without
replacement), in some order — i.e. a sublist of a permutation of `df`. -/
def SampleOK (sample : List Site → ℕ → ℕ → List Site) : Prop :=
  ∀ df n seed, (sample df n seed).length = min n df.length ∧
    List.Subperm (sample df n seed) df

/-- `DataValidator.validate_route_data` (validators.py 348-392).  In the
typed embedding every location record has all required fields with the
right types, so of the source's checks only the non-emptiness test
(line 361) remains. -/
def validate_route_data (route_data : List Site) : Bool :=
  !route_data.isEmpty

/-- `RouteOptimizer._create_route_from_locations` (route_optimizer.py
233-287).  `cluster_id` is the value of the `cluster` column of
`locations_df` (read on line 273).  The second guard models the `except`
branch: on an empty frame `nearest_neighbor_route` returns `[0]` and
`locations_list[0]` raises `IndexError`, which line 285-287 turns into
`None`. -/
def _create_route_from_locations (ox : Oracles) (cluster_id : ℕ)
    (locations_df : List Site) (max_budget : ℚ) : Option RouteData :=
  let total_cost := (locations_df.map (·.taxa_aoa)).sum
  if max_budget < total_cost then none
  else if locations_df.isEmpty then none
  else
    let optimized_indices := nearest_neighbor_route ox.dist
      (locations_df.map (fun loc => (loc.latitude, loc.longitude))) 0
    let optimized_locations := optimized_indices.map
      (fun i => locations_df.getD i default)
    let total_distance := calculate_route_distance ox.dist
      (optimized_locations.map (fun loc => (loc.latitude, loc.longitude)))
      (List.range optimized_locations.length)
    let avg_fragility :=
      (optimized_locations.map (·.fragilidade)).sum / optimized_locations.length
    some
      { nome := "Rota Cluster " ++ toString (cluster_id + 1) ++ " - "
          ++ toString optimized_locations.length ++ " locais"
        locais := optimized_locations
        num_locais := optimized_locations.length
        distancia_total_km := roundTo 2 total_distance
        custo_total_aoa := total_cost
        fragilidade_media := roundTo 2 avg_fragility
        provincias := (optimized_locations.map (·.provincia)).dedup
        tipos_ecosistema := (optimized_locations.map (·.tipo_ecosistema)).dedup }

/-- The `for _ in range(min(3, cluster_size // 2))` loop of
`_generate_cluster_routes` (route_optimizer.py 214-225): each iteration
draws `np.random.randint(1000)` (the `ctr`-th draw), samples
`min(max_locations, cluster_size)` rows and keeps the route when
`_create_route_from_locations` succeeds.  Returns the routes and the
updated draw counter. -/
def sampleAttempts (ox : Oracles) (cluster_id : ℕ) (cluster_df : List Site)
    (max_locations : ℕ) (max_budget : ℚ) : ℕ → ℕ → List RouteData × ℕ
  | 0, ctr => ([], ctr)
  | k + 1, ctr =>
    let seed := ox.randint ctr
    let selected := ox.sample cluster_df (min max_locations cluster_df.length) seed
    let rest := sampleAttempts ox cluster_id cluster_df max_locations max_budget k (ctr + 1)
    match _create_route_from_locations ox cluster_id selected max_budget with
    | some route => (route :: rest.1, rest.2)
    | none => rest

/-- `RouteOptimizer._generate_cluster_routes` (route_optimizer.py 186-231):
one route from the whole cluster when it fits in `max_locations`,
otherwise up to `min 3 (cluster_size / 2)` random subset attempts. -/
def _generate_cluster_routes (ox : Oracles) (cluster_id ctr : ℕ)
    (cluster_df : List Site) (max_locations : ℕ) (max_budget : ℚ) :
    List RouteData × ℕ :=
  let cluster_size := cluster_df.length
  if cluster_size ≤ max_locations then
    (match _create_route_from_locations ox cluster_id cluster_df max_budget with
     | some route => [route]
     | none => [], ctr)
  else
    sampleAttempts ox cluster_id cluster_df max_locations max_budget
      (min 3 (cluster_size / 2)) ctr

/-- `RouteOptimizer._create_geographic_clusters` (route_optimizer.py
127-184), returning each site paired with its `cluster` column.
`n_clusters = min(route_clustering and 6 or 1, len(df) // 2, len(df))`
with the settings values; below 2 clustering is skipped and every row gets
cluster `0`, otherwise the labels come from the K-Means oracle. -/
def _create_geographic_clusters (ox : Oracles) (df : List Site) :
    List (Site × ℕ) :=
  let n_clusters := min (if route_clustering then clustering_n_clusters else 1)
    (min (df.length / 2) df.length)
  if n_clusters < 2 then df.map (fun s => (s, 0))
  else df.zip (ox.kmeansLabels df n_clusters)

/-- `RouteOptimizer._calculate_route_scores` (route_optimizer.py 289-321):
`score = 0.45 * fragilidade_media + 0.35 * (distancia_total_km / 1000)
+ 0.20 * (custo_total_aoa / 100000)`, stored rounded to 3 decimals. -/
def _calculate_route_scores (routes : List RouteData) : List RouteData :=
  routes.map (fun route =>
    let s := score_weight_fragilidade * route.fragilidade_media
      + score_weight_distancia * (route.distancia_total_km / 1000)
      + score_weight_custo * (route.custo_total_aoa / 100000)
    { route with score := roundTo 3 s })

/-- `RouteOptimizer._select_best_routes` (route_optimizer.py 323-359):
sort ascending by score, truncate to the best `num_routes`, then drop
candidates failing `validate_route_data`.  Python's `sorted` is a stable
ascending sort; `insertionSort` is extensionally the same stable sort and
reduces in the kernel on concrete inputs. -/
def _select_best_routes (scored_routes : List RouteData) (num_routes : ℕ) :
    List RouteData :=
  if scored_routes.isEmpty then []
  else
    let sorted_routes :=
      scored_routes.insertionSort (fun a b => a.score ≤ b.score)
    let best_routes := sorted_routes.take num_routes
    best_routes.filter (fun route => validate_route_data route.locais)

/-- `RouteOptimizer.generate_routes` (route_optimizer.py 56-125): cluster,
generate candidates per cluster (in the first-appearance order of
`df_clustered['cluster'].unique()`, which `eraseDups` reproduces,
threading the random-draw counter), score, and select.  The
`max_locations or default` treatment of `None` arguments happens at the
call boundary and is not modelled. -/
def generate_routes (ox : Oracles) (df : List Site) (max_locations : ℕ)
    (num_routes : ℕ) (max_budget : ℚ) : List RouteData :=
  if df.isEmpty then []
  else
    let df_clustered := _create_geographic_clusters ox df
    let cluster_ids := (df_clustered.map Prod.snd).eraseDups
    let all_routes := (cluster_ids.foldl (fun acc cid =>
      let cluster_df := (df_clustered.filter (fun p => p.2 == cid)).map Prod.fst
      let step := _generate_cluster_routes ox cid acc.2 cluster_df
        max_locations max_budget
      (acc.1 ++ step.1, step.2)) (([] : List RouteData), 0)).1
    let scored_routes := _calculate_route_scores all_routes
    _select_best_routes scored_routes num_routes

/-! ### User profiles and the ML entry point -/

/-- A user profile with the fields required by `validate_user_profile`
(validators.py 456-457). -/
structure UserProfile where
  idade : ℚ
  orcamento_max : ℚ
  preferencia_sustentabilidade : ℚ
  preferencia_aventura : ℚ
  preferencia_cultura : ℚ
deriving DecidableEq, Inhabited, Repr

/-- `validate_user_profile` (validators.py 445-485).  In the typed
embedding the required fields are always present; the range checks of
lines 466-479 remain. -/
def validate_user_profile (profile : UserProfile) : Bool :=
  if ¬ (18 ≤ profile.idade ∧ profile.idade ≤ 100) then false
  else if profile.orcamento_max ≤ 0 then false
  else if ¬ (0 ≤ profile.preferencia_sustentabilidade ∧
              profile.preferencia_sustentabilidade ≤ 1) then false
  else if ¬ (0 ≤ profile.preferencia_aventura ∧
              profile.preferencia_aventura ≤ 1) then false
  else if ¬ (0 ≤ profile.preferencia_cultura ∧
              profile.preferencia_cultura ≤ 1) then false
  else true

/-- The slice of `EcoTurismoSystem` state read or written by
`gerar_rotas_personalizadas_ml` (src/ecoturismo_system.py): whether ML is
enabled (`use_ml`, and with it `ml_engine`, created in `__init__` exactly
when `use_ml` holds, so the guard `not self.use_ml or not self.ml_engine`
is one flag), the loaded catalog `df`, whether `ml_engine.rating_model`
is already trained, and the stored `rotas_recomendadas`.  `R` is the
(presentation level) type of a personalised route. -/
structure SystemState (R : Type) where
  use_ml : Bool
  df : Option (List Site)
  ml_rating_model : Bool
  rotas_recomendadas : List R

/-- `EcoTurismoSystem.gerar_rotas_personalizadas_ml`
(src/ecoturismo_system.py 287-332), the repository's runnable personalised
route generation.  `train` models the lazy training block (feature
engineering, synthetic users, `treinar_modelo_rating`,
`criar_clusters_locais`, lines 314-319) and `gen` models
`ml_engine.gerar_rotas_personalizadas` (lines 322-327); both are
parameters, so a result that does not depend on them was produced without
invoking the model.  The two early exits print a message and return `[]`
(no exception).  Nothing in the method validates the user profile. -/
def gerar_rotas_personalizadas_ml {R : Type}
    (train : SystemState R → SystemState R)
    (gen : SystemState R → UserProfile → ℚ → ℕ → ℕ → List R)
    (st : SystemState R) (user_profile : UserProfile)
    (orcamento_max : ℚ) (max_locais num_rotas : ℕ) :
    SystemState R × List R :=
  if ¬ st.use_ml then (st, [])
  else
    match st.df with
    | none => (st, [])
    | some _ =>
      let st1 := if st.ml_rating_model then st else train st
      let rotas_personalizadas := gen st1 user_profile orcamento_max
        max_locais num_rotas
      ({ st1 with rotas_recomendadas := rotas_personalizadas },
        rotas_personalizadas)

/-! ### Rating prediction (`ml_recommendation_engine.py`) -/

/-- Modelled from the spec: the great-circle haversine formula used by the
external `haversine` package (the package itself is not part of this
repository) — "great-circle distance between two coordinates, in
kilometers, using the haversine formula" (spec section 4.1), with the
package's mean earth radius 6371.0088 km and degree-to-radian conversion. -/
noncomputable def haversine (point1 point2 : ℝ × ℝ) : ℝ :=
  let lat1 := point1.1 * (Real.pi / 180)
  let lng1 := point1.2 * (Real.pi / 180)
  let lat2 := point2.1 * (Real.pi / 180)
  let lng2 := point2.2 * (Real.pi / 180)
  let h := Real.sin ((lat2 - lat1) / 2) ^ 2 +
    Real.cos lat1 * Real.cos lat2 * Real.sin ((lng2 - lng1) / 2) ^ 2
  2 * 6371.0088 * Real.arcsin (Real.sqrt h)

/-- `GeographicCalculator._validate_coordinates` (geographic.py 280-296):
latitude in `[-90, 90]`, longitude in `[-180, 180]`. -/
def _validate_coordinates (coord : ℝ × ℝ) : Prop :=
  (-90 ≤ coord.1 ∧ coord.1 ≤ 90) ∧ (-180 ≤ coord.2 ∧ coord.2 ≤ 180)

open Classical in
/-- `GeographicCalculator.calculate_distance` (geographic.py 46-81):
`none` models the `ValueError` raised for out-of-range coordinates. -/
noncomputable def calculate_distance (coord1 coord2 : ℝ × ℝ) : Option ℝ :=
  if _validate_coordinates coord1 ∧ _validate_coordinates coord2 then
    some (haversine coord1 coord2)
  else none

/-! ### Concrete data used by the scenario claims

The three test sites are the ones in the repository's own smoke test
(route_optimizer.py 540-550) and in spec Scenario A. -/

/-- Parque Nacional da Kissama: price 25000 AOA, fragility 3. -/
def kissama : Site :=
  { nome := "Parque Nacional da Kissama", provincia := "Luanda"
    latitude := -875 / 100, longitude := 1325 / 100
    fragilidade := 3, capacidade_diaria := 150, taxa_aoa := 25000
    tipo_ecosistema := "savana", descricao := "Reserva natural" }

/-- Cascatas de Kalandula: price 15000 AOA, fragility 2. -/
def kalandula : Site :=
  { nome := "Cascatas de Kalandula", provincia := "Malange"
    latitude := -90833 / 10000, longitude := 160167 / 10000
    fragilidade := 2, capacidade_diaria := 200, taxa_aoa := 15000
    tipo_ecosistema := "floresta", descricao := "Cachoeiras" }

/-- Parque Nacional de Iona: price 30000 AOA, fragility 4. -/
def iona : Site :=
  { nome := "Parque Nacional de Iona", provincia := "Namibe"
    latitude := -1675 / 100, longitude := 1225 / 100
    fragilidade := 4, capacidade_diaria := 100, taxa_aoa := 30000
    tipo_ecosistema := "deserto", descricao := "Deserto costeiro" }

/-- The Scenario A catalog of 3 sites. -/
def testCatalog : List Site := [kissama, kalandula, iona]

/-- The coordinates of the Scenario A catalog, in catalog order. -/
def testCoords : List Coord :=
  testCatalog.map (fun loc => (loc.latitude, loc.longitude))

/-- A concrete, well-behaved oracle instance used for counterexamples and
witnesses: constant distances, a single cluster label, sampling by
`take`, constant random draws. -/
def oxTrivial : Oracles :=
  { dist := fun _ _ => 0
    kmeansLabels := fun df _ => List.replicate df.length 0
    sample := fun df n _ => df.take n
    randint := fun _ => 0 }

/-- A concrete distance function (the taxicab metric) used to instantiate
witnesses; any `d` would do. -/
def dTaxi : Coord → Coord → ℚ := fun a b => |a.1 - b.1| + |a.2 - b.2|

/-- A one-site catalog witnessing single-location routes. -/
def siteA : Site :=
  { nome := "A", provincia := "Luanda", latitude := -9, longitude := 13
    fragilidade := 3, capacidade_diaria := 10, taxa_aoa := 100
    tipo_ecosistema := "savana", descricao := "a" }

/-- A second distinct site for two-site witnesses. -/
def siteB : Site :=
  { nome := "B", provincia := "Malange", latitude := -10, longitude := 14
    fragilidade := 2, capacidade_diaria := 20, taxa_aoa := 200
    tipo_ecosistema := "floresta", descricao := "b" }

/-- A scored candidate with an empty `locais` list (failing
`validate_route_data`) and the best score of the pool below. -/
def routeInvalid : RouteData :=
  { nome := "invalid", locais := [], num_locais := 0, distancia_total_km := 0
    custo_total_aoa := 0, fragilidade_media := 0, provincias := []
    tipos_ecosistema := [], score := 1 }

/-- A valid scored candidate with the second-best score of the pool. -/
def routeValid1 : RouteData :=
  { nome := "valid1", locais := [siteA], num_locais := 1
    distancia_total_km := 0, custo_total_aoa := 100, fragilidade_media := 3
    provincias := ["Luanda"], tipos_ecosistema := ["savana"], score := 2 }

/-- A valid scored candidate with the third-best score of the pool. -/
def routeValid2 : RouteData :=
  { nome := "valid2", locais := [siteB], num_locais := 1
    distancia_total_km := 0, custo_total_aoa := 200, fragilidade_media := 2
    provincias := ["Malange"], tipos_ecosistema := ["floresta"], score := 3 }

/-- A pool in which the best-scored candidate is structurally invalid while
two valid candidates exist. -/
def poolWithInvalidBest : List RouteData := [routeInvalid, routeValid1, routeValid2]

/-- The invalid profile of spec Scenario E: `age = 10`. -/
def profileAge10 : UserProfile :=
  { idade := 10, orcamento_max := 20000
    preferencia_sustentabilidade := 8 / 10
    preferencia_aventura := 6 / 10
    preferencia_cultura := 7 / 10 }

/-- A ready system state (ML enabled, data loaded, model trained), with
`ℕ`-valued personalised routes for the witnesses. -/
def sysReady : SystemState ℕ :=
  { use_ml := true, df := some testCatalog, ml_rating_model := true
    rotas_recomendadas := [] }

/-! ### Properties of the candidate scan -/

/-- The inner scan on the empty candidate list leaves `next_index = -1`. -/
lemma nextIndex_nil (f : ℕ → ℚ) : nextIndex f [] = none := rfl

/-- Behaviour of the strict-improvement fold: starting from the running
minimum `(m, j)` with `m = f j`, over a strictly increasing candidate list
whose elements all exceed `j`, the fold returns the minimum value together
with the least index attaining it. -/
lemma foldl_nnAccStep_spec (f : ℕ → ℚ) :
    ∀ (l : List ℕ) (m : ℚ) (j : ℕ), m = f j → l.Pairwise (· < ·) →
    (∀ i ∈ l, j < i) →
    ∃ M J, l.foldl (nnAccStep f) (some (m, j)) = some (M, J) ∧ M = f J ∧
      (J = j ∨ J ∈ l) ∧ M ≤ m ∧ (∀ i ∈ l, M ≤ f i) ∧
      (∀ i ∈ l, f i = M → J ≤ i) ∧ (f j = M → J = j)
  | [], m, j, hm, _, _ =>
    ⟨m, j, by simp, hm, Or.inl rfl, le_refl _, by simp, by simp, fun _ => rfl⟩
  | i₀ :: rest, m, j, hm, hpw, hgt => by
    have hpw' : rest.Pairwise (· < ·) := hpw.of_cons
    have hio : ∀ i ∈ rest, i₀ < i := fun i hi => List.rel_of_pairwise_cons hpw hi
    by_cases hlt : f i₀ < m
    · obtain ⟨M, J, hfold, hMJ, hmem, hle, hub, htie, hfix⟩ :=
        foldl_nnAccStep_spec f rest (f i₀) i₀ rfl hpw' hio
      refine ⟨M, J, ?_, hMJ, ?_, ?_, ?_, ?_, ?_⟩
      · rw [List.foldl_cons]
        simpa [nnAccStep, hlt] using hfold
      · rcases hmem with h | h
        · exact Or.inr (h ▸ List.mem_cons_self i₀ rest)
        · exact Or.inr (List.mem_cons_of_mem _ h)
      · exact hle.trans hlt.le
      · intro i hi
        rcases List.mem_cons.mp hi with rfl | hi
        · exact hle
        · exact hub i hi
      · intro i hi hieq
        rcases List.mem_cons.mp hi with rfl | hi
        · exact (hfix hieq).le
        · exact htie i hi hieq
      · intro hjM
        exfalso
        have h1 : M < m := lt_of_le_of_lt hle hlt
        rw [hm, hjM] at h1
        exact lt_irrefl _ h1
    · obtain ⟨M, J, hfold, hMJ, hmem, hle, hub, htie, hfix⟩ :=
        foldl_nnAccStep_spec f rest m j hm hpw'
          (fun i hi => hgt i (List.mem_cons_of_mem _ hi))
      refine ⟨M, J, ?_, hMJ, ?_, hle, ?_, ?_, hfix⟩
      · rw [List.foldl_cons]
        simpa [nnAccStep, hlt] using hfold
      · rcases hmem with h | h
        · exact Or.inl h
        · exact Or.inr (List.mem_cons_of_mem _ h)
      · intro i hi
        rcases List.mem_cons.mp hi with rfl | hi
        · exact hle.trans (not_lt.mp hlt)
        · exact hub i hi
      · intro i hi hieq
        rcases List.mem_cons.mp hi with heq | hi
        · have hMm : M = m := le_antisymm hle (by
            rw [← hieq, heq]
            exact not_lt.mp hlt)
          have hJj : J = j := hfix (by rw [← hm, hMm])
          rw [heq, hJj]
          exact (hgt i₀ (List.mem_cons_self i₀ rest)).le
        · exact htie i hi hieq

/-- The scan over a nonempty, strictly increasing candidate list selects a
candidate of minimum distance, and among equal distances the one with the
lowest index. -/
lemma nextIndex_spec (f : ℕ → ℚ) (cands : List ℕ) (hne : cands ≠ [])
    (hpw : cands.Pairwise (· < ·)) :
    ∃ J, nextIndex f cands = some J ∧ J ∈ cands ∧
      (∀ i ∈ cands, f J ≤ f i) ∧ (∀ i ∈ cands, f i = f J → J ≤ i) := by
  match cands, hne with
  | c :: rest, _ =>
    obtain ⟨M, J, hfold, hMJ, hmem, hle, hub, htie, hfix⟩ :=
      foldl_nnAccStep_spec f rest (f c) c rfl hpw.of_cons
        (fun i hi => List.rel_of_pairwise_cons hpw hi)
    refine ⟨J, ?_, ?_, ?_, ?_⟩
    · unfold nextIndex
      rw [List.foldl_cons]
      show ((rest.foldl (nnAccStep f) (nnAccStep f none c)).map Prod.snd) = some J
      simp only [nnAccStep]
      rw [hfold]
      rfl
    · rcases hmem with h | h
      · exact h ▸ List.mem_cons_self c rest
      · exact List.mem_cons_of_mem _ h
    · intro i hi
      rcases List.mem_cons.mp hi with rfl | hi
      · exact hMJ ▸ hle
      · exact hMJ ▸ hub i hi
    · intro i hi hieq
      rcases List.mem_cons.mp hi with rfl | hi
      · exact (hfix (hieq.trans hMJ.symm)).le
      · exact htie i hi (hieq.trans hMJ.symm)

/-- Membership in the unvisited candidate list. -/
lemma mem_unvisitedCands {n : ℕ} {visited : List ℕ} {i : ℕ} :
    i ∈ unvisitedCands n visited ↔ i < n ∧ i ∉ visited := by
  simp [unvisitedCands, List.mem_filter, List.mem_range]

/-- The unvisited candidate list is strictly increasing. -/
lemma pairwise_unvisitedCands (n : ℕ) (visited : List ℕ) :
    (unvisitedCands n visited).Pairwise (· < ·) :=
  (List.pairwise_lt_range n).filter _

/-- While fewer than `n` indices are visited, a candidate remains. -/
lemma unvisitedCands_ne_nil {n : ℕ} {visited : List ℕ}
    (hlen : visited.length < n) :
    unvisitedCands n visited ≠ [] := by
  intro h
  have hsub : ∀ i, i < n → i ∈ visited := by
    intro i hi
    by_contra hmem
    have hin : i ∈ unvisitedCands n visited := mem_unvisitedCands.mpr ⟨hi, hmem⟩
    rw [h] at hin
    exact List.not_mem_nil i hin
  have h1 : Finset.range n ⊆ visited.toFinset := by
    intro i hi
    rw [List.mem_toFinset]
    exact hsub i (Finset.mem_range.mp hi)
  have h2 : n ≤ visited.toFinset.card := by
    simpa using Finset.card_le_card h1
  have h3 : visited.toFinset.card ≤ visited.length := visited.toFinset_card_le
  omega

/-- A duplicate-free list of `n` naturals below `n` is a permutation of
`range n`. -/
lemma perm_range_of_nodup {l : List ℕ} {n : ℕ} (hnd : l.Nodup)
    (hlt : ∀ x ∈ l, x < n) (hlen : l.length = n) : l.Perm (List.range n) := by
  apply List.perm_of_nodup_nodup_toFinset_eq hnd (List.nodup_range n)
  have hts : (List.range n).toFinset = Finset.range n := by
    ext i
    simp
  rw [hts]
  apply Finset.eq_of_subset_of_card_le
  · intro i hi
    rw [Finset.mem_range]
    exact hlt i (List.mem_toFinset.mp hi)
  · rw [List.toFinset_card_of_nodup hnd, hlen, Finset.card_range]

/-- The key loop invariant: starting from a duplicate-free visited list of
indices below `n` with exactly `n - visited.length` iterations left, the
visited prefix followed by the loop output is a permutation of `range n`. -/
lemma nnLoop_perm (D : ℕ → ℕ → ℚ) (n : ℕ) :
    ∀ (steps current : ℕ) (visited : List ℕ), visited.Nodup →
    (∀ x ∈ visited, x < n) → visited.length + steps = n →
    (visited ++ nnLoop D n steps current visited).Perm (List.range n)
  | 0, current, visited, hnd, hlt, hlen => by
    rw [nnLoop]
    rw [List.append_nil]
    exact perm_range_of_nodup hnd hlt (by omega)
  | steps + 1, current, visited, hnd, hlt, hlen => by
    have hne : unvisitedCands n visited ≠ [] := unvisitedCands_ne_nil (by omega)
    obtain ⟨J, hJ, hJmem, -, -⟩ := nextIndex_spec (D current) _ hne
      (pairwise_unvisitedCands n visited)
    obtain ⟨hJn, hJnv⟩ := mem_unvisitedCands.mp hJmem
    have hstep : nnLoop D n (steps + 1) current visited
        = J :: nnLoop D n steps J (visited ++ [J]) := by
      rw [nnLoop, hJ]
    rw [hstep]
    have heq : visited ++ J :: nnLoop D n steps J (visited ++ [J])
        = (visited ++ [J]) ++ nnLoop D n steps J (visited ++ [J]) := by
      simp
    rw [heq]
    apply nnLoop_perm D n steps J (visited ++ [J])
    · rw [List.nodup_append]
      refine ⟨hnd, List.nodup_singleton J, ?_⟩
      intro a ha hb
      rw [List.mem_singleton] at hb
      exact hJnv (hb ▸ ha)
    · intro x hx
      rcases List.mem_append.mp hx with h | h
      · exact hlt x h
      · rw [List.mem_singleton] at h
        exact h ▸ hJn
    · rw [List.length_append, List.length_singleton]
      omega

/-- If a duplicate-free list has `x` at position `m`, then `x` is not among
the first `m` entries. -/
lemma not_mem_take_of_nodup {α : Type} {l : List α} (hnd : l.Nodup) {m : ℕ}
    {x : α} (h : l.get? m = some x) : x ∉ l.take m := by
  intro hx
  obtain ⟨j, hj⟩ := List.mem_iff_get?.mp hx
  have hjm : j < m := by
    by_contra hge
    have hlen : (l.take m).length ≤ j := by
      have := l.length_take m
      omega
    rw [List.get?_eq_none.mpr hlen] at hj
    exact Option.noConfusion hj
  have hlj : l.get? j = some x := by
    rw [← List.get?_take hjm]
    exact hj
  have hmlen : m < l.length := by
    by_contra h2
    rw [List.get?_eq_none.mpr (by omega)] at h
    exact Option.noConfusion h
  have hjlen : j < l.length := by omega
  have := List.get?_inj hjlen hnd (hlj.trans h.symm)
  omega

/-- The greedy invariant of the loop: in the list `pre ++ [current]`
followed by the loop output, every step from position `k` (at or after the
position of `current`) to position `k + 1` moves to an index of minimum
distance among the indices below `n` not yet visited, ties broken towards
the lowest index. -/
lemma nnLoop_greedy (D : ℕ → ℕ → ℚ) (n : ℕ) :
    ∀ (steps current : ℕ) (pre : List ℕ) (k cur nxt : ℕ),
    pre.length ≤ k →
    ((pre ++ [current]) ++ nnLoop D n steps current (pre ++ [current])).get? k
      = some cur →
    ((pre ++ [current]) ++ nnLoop D n steps current (pre ++ [current])).get?
      (k + 1) = some nxt →
    ∀ i, i < n →
      i ∉ ((pre ++ [current])
        ++ nnLoop D n steps current (pre ++ [current])).take (k + 1) →
      D cur nxt ≤ D cur i ∧ (D cur i = D cur nxt → nxt ≤ i)
  | 0, current, pre, k, cur, nxt, hk, hcur, hnxt => by
    exfalso
    rw [nnLoop, List.append_nil, List.get?_eq_none.mpr (by
      rw [List.length_append, List.length_singleton]
      omega)] at hnxt
    exact Option.noConfusion hnxt
  | steps + 1, current, pre, k, cur, nxt, hk, hcur, hnxt => by
    cases hJcase : nextIndex (D current) (unvisitedCands n (pre ++ [current])) with
    | none =>
      exfalso
      rw [nnLoop, hJcase, List.append_nil, List.get?_eq_none.mpr (by
        rw [List.length_append, List.length_singleton]
        omega)] at hnxt
      exact Option.noConfusion hnxt
    | some J =>
      have hstep : nnLoop D n (steps + 1) current (pre ++ [current])
          = J :: nnLoop D n steps J ((pre ++ [current]) ++ [J]) := by
        rw [nnLoop, hJcase]
      rcases Nat.lt_or_ge pre.length k with hk' | hk'
      · -- the step happens strictly inside the recursive call
        intro i hin hitake
        have hassoc : (pre ++ [current]) ++ nnLoop D n (steps + 1) current (pre ++ [current])
            = ((pre ++ [current]) ++ [J])
              ++ nnLoop D n steps J ((pre ++ [current]) ++ [J]) := by
          rw [hstep]
          simp
        rw [hassoc] at hcur hnxt hitake
        exact nnLoop_greedy D n steps J (pre ++ [current]) k cur nxt
          (by rw [List.length_append, List.length_singleton]; omega)
          hcur hnxt i hin hitake
      · -- k is exactly the position of `current`
        have hkeq : k = pre.length := by omega
        subst hkeq
        have hlen1 : (pre ++ [current]).length = pre.length + 1 := by
          rw [List.length_append, List.length_singleton]
        have hcur' : cur = current := by
          rw [List.get?_append (by omega), List.get?_concat_length] at hcur
          exact (Option.some.inj hcur).symm
        have hnxt' : nxt = J := by
          rw [hstep, List.get?_append_right (by omega)] at hnxt
          rw [hlen1] at hnxt
          simp at hnxt
          exact hnxt.symm
        have htake : ((pre ++ [current])
            ++ nnLoop D n (steps + 1) current (pre ++ [current])).take
              (pre.length + 1) = pre ++ [current] := by
          rw [← hlen1, List.take_left]
        obtain ⟨J', hJ', hJmem, hmin, htie⟩ := nextIndex_spec (D current)
          (unvisitedCands n (pre ++ [current]))
          (by
            intro hnil
            rw [hnil, nextIndex_nil] at hJcase
            exact Option.noConfusion hJcase)
          (pairwise_unvisitedCands n (pre ++ [current]))
        have hJJ : J' = J := by
          rw [hJ'] at hJcase
          exact Option.some.inj hJcase
        subst hJJ
        intro i hin hitake
        rw [htake] at hitake
        have hicand : i ∈ unvisitedCands n (pre ++ [current]) :=
          mem_unvisitedCands.mpr ⟨hin, hitake⟩
        subst hcur'
        subst hnxt'
        exact ⟨hmin i hicand, fun he => htie i hicand (by
          rw [he])⟩

/-- Unfolding of the tour for at least two coordinates. -/
lemma nearest_neighbor_route_eq_cons {d : Coord → Coord → ℚ}
    {coordinates : List Coord} {start_index : ℕ}
    (h : 2 ≤ coordinates.length) :
    nearest_neighbor_route d coordinates start_index = start_index ::
      nnLoop (fun a b => d (coordinates.getD a default) (coordinates.getD b default))
        coordinates.length (coordinates.length - 1) start_index [start_index] := by
  rw [nearest_neighbor_route, if_neg (by omega)]

/-- The tour of a nonempty coordinate list from a valid start index is a
permutation of `range n`. -/
lemma nearest_neighbor_route_perm (d : Coord → Coord → ℚ)
    (coordinates : List Coord) (start_index : ℕ)
    (hs : start_index < coordinates.length) :
    (nearest_neighbor_route d coordinates start_index).Perm
      (List.range coordinates.length) := by
  rcases Nat.lt_or_ge coordinates.length 2 with h2 | h2
  · have h1 : coordinates.length = 1 := by omega
    have hs0 : start_index = 0 := by omega
    rw [nearest_neighbor_route, if_pos (by omega), h1]
    decide
  · rw [nearest_neighbor_route_eq_cons h2]
    have h := nnLoop_perm
      (fun a b => d (coordinates.getD a default) (coordinates.getD b default))
      coordinates.length (coordinates.length - 1) start_index [start_index]
      (List.nodup_singleton start_index)
      (by
        intro x hx
        rw [List.mem_singleton] at hx
        exact hx ▸ hs)
      (by
        rw [List.length_singleton]
        omega)
    simpa using h

/-- The tour starts at the start index. -/
lemma nearest_neighbor_route_head (d : Coord → Coord → ℚ)
    (coordinates : List Coord) (start_index : ℕ)
    (hs : start_index < coordinates.length) :
    (nearest_neighbor_route d coordinates start_index).head? = some start_index := by
  rcases Nat.lt_or_ge coordinates.length 2 with h2 | h2
  · have hs0 : start_index = 0 := by omega
    rw [nearest_neighbor_route, if_pos (by omega), hs0]
    rfl
  · rw [nearest_neighbor_route_eq_cons h2]
    rfl

/-- The tour is never the empty list. -/
lemma nearest_neighbor_route_ne_nil (d : Coord → Coord → ℚ)
    (coordinates : List Coord) (start_index : ℕ) :
    nearest_neighbor_route d coordinates start_index ≠ [] := by
  rw [nearest_neighbor_route]
  split
  · exact List.cons_ne_nil 0 []
  · exact List.cons_ne_nil _ _

/-- The tour has no duplicate indices and all its indices are in range; its
length is the number of coordinates (for nonempty input). -/
lemma nearest_neighbor_route_nodup (d : Coord → Coord → ℚ)
    (coordinates : List Coord) (start_index : ℕ)
    (hs : start_index < coordinates.length) :
    (nearest_neighbor_route d coordinates start_index).Nodup ∧
    (∀ i ∈ nearest_neighbor_route d coordinates start_index,
      i < coordinates.length) ∧
    (nearest_neighbor_route d coordinates start_index).length
      = coordinates.length := by
  have hperm := nearest_neighbor_route_perm d coordinates start_index hs
  refine ⟨hperm.nodup_iff.mpr (List.nodup_range _), ?_, ?_⟩
  · intro i hi
    exact List.mem_range.mp (hperm.mem_iff.mp hi)
  · rw [hperm.length_eq, List.length_range]

/-- The greedy property at route level: each consecutive step of the tour
goes to an unvisited in-range index of minimum distance from the current
one, ties to the lowest index. -/
lemma nearest_neighbor_route_greedy (d : Coord → Coord → ℚ)
    (coordinates : List Coord) (start_index : ℕ)
    (k cur nxt : ℕ)
    (hcur : (nearest_neighbor_route d coordinates start_index).get? k = some cur)
    (hnxt : (nearest_neighbor_route d coordinates start_index).get? (k + 1)
      = some nxt) :
    ∀ i, i < coordinates.length →
      i ∉ (nearest_neighbor_route d coordinates start_index).take (k + 1) →
      d (coordinates.getD cur default) (coordinates.getD nxt default) ≤
        d (coordinates.getD cur default) (coordinates.getD i default) ∧
      (d (coordinates.getD cur default) (coordinates.getD i default) =
        d (coordinates.getD cur default) (coordinates.getD nxt default) →
        nxt ≤ i) := by
  rcases Nat.lt_or_ge coordinates.length 2 with h2 | h2
  · exfalso
    rw [nearest_neighbor_route, if_pos (by omega)] at hnxt
    rw [List.get?_eq_none.mpr (by
      rw [List.length_singleton]
      omega)] at hnxt
    exact Option.noConfusion hnxt
  · have hroute := @nearest_neighbor_route_eq_cons d coordinates start_index h2
    rw [hroute] at hcur hnxt ⊢
    have hcons : start_index ::
        nnLoop (fun a b => d (coordinates.getD a default) (coordinates.getD b default))
          coordinates.length (coordinates.length - 1) start_index [start_index]
        = (([] : List ℕ) ++ [start_index]) ++
          nnLoop (fun a b => d (coordinates.getD a default) (coordinates.getD b default))
            coordinates.length (coordinates.length - 1) start_index
            (([] : List ℕ) ++ [start_index]) := by
      simp
    rw [hcons] at hcur hnxt ⊢
    exact nnLoop_greedy _ coordinates.length (coordinates.length - 1)
      start_index [] k cur nxt (Nat.zero_le k) hcur hnxt

/-! ### Claim theorems -/

/-- C2: for every list of `n ≥ 1` coordinates and every valid start index,
`nearest_neighbor_route` returns a permutation of the indices `0..n-1`
(hence with no repeats), which begins at the start index, and at each step
moves to the unvisited point of minimum distance from the current point,
breaking ties by the lowest original index. -/
theorem nearest_neighbor_route_follows_spec (d : Coord → Coord → ℚ)
    (coordinates : List Coord) (start_index : ℕ)
    (hs : start_index < coordinates.length) :
    (nearest_neighbor_route d coordinates start_index).Perm
      (List.range coordinates.length) ∧
    (nearest_neighbor_route d coordinates start_index).head?
      = some start_index ∧
    (∀ k cur nxt,
      (nearest_neighbor_route d coordinates start_index).get? k = some cur →
      (nearest_neighbor_route d coordinates start_index).get? (k + 1)
        = some nxt →
      nxt ∉ (nearest_neighbor_route d coordinates start_index).take (k + 1) ∧
      ∀ i, i < coordinates.length →
        i ∉ (nearest_neighbor_route d coordinates start_index).take (k + 1) →
        d (coordinates.getD cur default) (coordinates.getD nxt default) ≤
          d (coordinates.getD cur default) (coordinates.getD i default) ∧
        (d (coordinates.getD cur default) (coordinates.getD i default) =
          d (coordinates.getD cur default) (coordinates.getD nxt default) →
          nxt ≤ i)) := by
  refine ⟨nearest_neighbor_route_perm d coordinates start_index hs,
    nearest_neighbor_route_head d coordinates start_index hs, ?_⟩
  intro k cur nxt hcur hnxt
  have hnodup : (nearest_neighbor_route d coordinates start_index).Nodup :=
    ((nearest_neighbor_route_perm d coordinates start_index hs).nodup_iff).mpr
      (List.nodup_range _)
  exact ⟨not_mem_take_of_nodup hnodup hnxt,
    nearest_neighbor_route_greedy d coordinates start_index k cur nxt hcur hnxt⟩

/-- Witness for C2 at a concrete three-point input with a distance tie. -/
theorem nearest_neighbor_route_follows_spec_witness :
    0 < ([((0 : ℚ), (0 : ℚ)), (0, 1), (0, -1)] : List Coord).length ∧
    (nearest_neighbor_route dTaxi
      [((0 : ℚ), (0 : ℚ)), (0, 1), (0, -1)] 0).Perm (List.range 3) :=
  ⟨by decide,
    (nearest_neighbor_route_follows_spec dTaxi
      [((0 : ℚ), (0 : ℚ)), (0, 1), (0, -1)] 0 (by decide)).1⟩

/-- C10: for every coordinate list of length at most one and every start
index, `nearest_neighbor_route` returns exactly `[0]` ignoring the start
index; in particular on the empty list it returns the nonempty list `[0]`,
whose single index refers to no input point. -/
theorem nearest_neighbor_route_degenerate (d : Coord → Coord → ℚ)
    (coordinates : List Coord) (start_index : ℕ)
    (h : coordinates.length ≤ 1) :
    nearest_neighbor_route d coordinates start_index = [0] ∧
    nearest_neighbor_route d ([] : List Coord) start_index = [0] ∧
    nearest_neighbor_route d ([] : List Coord) start_index ≠ [] ∧
    ¬ 0 < ([] : List Coord).length := by
  refine ⟨by rw [nearest_neighbor_route, if_pos h], ?_, ?_, by decide⟩
  · rw [nearest_neighbor_route, if_pos (by decide)]
  · rw [nearest_neighbor_route, if_pos (by decide)]
    exact List.cons_ne_nil 0 []

/-- Witness for C10 at a singleton input with an out-of-range start index. -/
theorem nearest_neighbor_route_degenerate_witness :
    ([((5 : ℚ), (5 : ℚ))] : List Coord).length ≤ 1 ∧
    nearest_neighbor_route dTaxi [((5 : ℚ), (5 : ℚ))] 7 = [0] :=
  ⟨by decide,
    (nearest_neighbor_route_degenerate dTaxi [((5 : ℚ), (5 : ℚ))] 7 (by decide)).1⟩

/-- The haversine formula is symmetric in its two points. -/
lemma haversine_comm (p q : ℝ × ℝ) : haversine p q = haversine q p := by
  unfold haversine
  have h1 : ∀ a b : ℝ, Real.sin ((a - b) / 2) ^ 2 = Real.sin ((b - a) / 2) ^ 2 := by
    intro a b
    rw [show (a - b) / 2 = -((b - a) / 2) by ring, Real.sin_neg, neg_sq]
  simp only [h1]
  ring_nf

/-- The haversine distance from a point to itself vanishes. -/
lemma haversine_self (p : ℝ × ℝ) : haversine p p = 0 := by
  unfold haversine
  simp [sub_self]

/-- C8: for valid coordinates, `calculate_distance` is symmetric and
vanishes on the diagonal. -/
theorem calculate_distance_symm_self (a b : ℝ × ℝ)
    (ha : _validate_coordinates a) (hb : _validate_coordinates b) :
    calculate_distance a b = calculate_distance b a ∧
    calculate_distance a a = some 0 := by
  constructor
  · rw [calculate_distance, calculate_distance, if_pos ⟨ha, hb⟩, if_pos ⟨hb, ha⟩,
      haversine_comm]
  · rw [calculate_distance, if_pos ⟨ha, ha⟩, haversine_self]

/-- Witness for C8 at the repository's Luanda and Kalandula coordinates. -/
theorem calculate_distance_symm_self_witness :
    _validate_coordinates ((-8.8390 : ℝ), (13.2894 : ℝ)) ∧
    _validate_coordinates ((-9.0833 : ℝ), (16.0167 : ℝ)) ∧
    calculate_distance ((-8.8390 : ℝ), (13.2894 : ℝ))
        ((-9.0833 : ℝ), (16.0167 : ℝ))
      = calculate_distance ((-9.0833 : ℝ), (16.0167 : ℝ))
        ((-8.8390 : ℝ), (13.2894 : ℝ)) ∧
    calculate_distance ((-8.8390 : ℝ), (13.2894 : ℝ))
        ((-8.8390 : ℝ), (13.2894 : ℝ)) = some 0 := by
  have ha : _validate_coordinates ((-8.8390 : ℝ), (13.2894 : ℝ)) := by
    constructor <;> constructor <;> norm_num
  have hb : _validate_coordinates ((-9.0833 : ℝ), (16.0167 : ℝ)) := by
    constructor <;> constructor <;> norm_num
  exact ⟨ha, hb, (calculate_distance_symm_self _ _ ha hb).1,
    (calculate_distance_symm_self _ _ ha hb).2⟩

/-- C5 (code bug): by the repository's own validator the Scenario E
profile (`age = 10`) is invalid, yet the runnable
`gerar_rotas_personalizadas_ml` never consults a validator: on a ready
system state (ML enabled, data loaded, model trained), for every `train`
and `gen` oracle the generation oracle is invoked on the invalid profile,
its routes are returned and stored into `rotas_recomendadas`, and no
invalid-profile error is raised.  The variant that would validate first
(`generate_ml_routes`, src/src/core/ecoturismo_system.py 266-307, whose
docstring documents the `ValueError` for an invalid profile) does not
parse — line 267 is not indented under the `try` of line 266 — so its
documented error path cannot run. -/
theorem ml_routes_no_validation :
    validate_user_profile profileAge10 = false ∧
    ∀ (train : SystemState ℕ → SystemState ℕ)
      (gen : SystemState ℕ → UserProfile → ℚ → ℕ → ℕ → List ℕ),
      gerar_rotas_personalizadas_ml train gen sysReady profileAge10 20000 6 5
        = ({ sysReady with
              rotas_recomendadas := gen sysReady profileAge10 20000 6 5 },
            gen sysReady profileAge10 20000 6 5) := by
  constructor
  · have h : ¬ (18 ≤ profileAge10.idade ∧ profileAge10.idade ≤ 100) := by
      intro hc
      have h1 := hc.1
      norm_num [profileAge10] at h1
    rw [validate_user_profile, if_pos h]
  · intro train gen
    rfl

/-- C6: two calls of `generate_routes` on identical inputs, with the
external random/foreign calls (distance, K-Means, sampling, random draws)
behaving identically — i.e. an identically seeded random source — return
identical candidate lists. -/
theorem generate_routes_two_runs (ox₁ ox₂ : Oracles)
    (hd : ox₁.dist = ox₂.dist) (hk : ox₁.kmeansLabels = ox₂.kmeansLabels)
    (hs : ox₁.sample = ox₂.sample) (hr : ox₁.randint = ox₂.randint)
    (df : List Site) (max_locations num_routes : ℕ) (max_budget : ℚ) :
    generate_routes ox₁ df max_locations num_routes max_budget
      = generate_routes ox₂ df max_locations num_routes max_budget := by
  have hox : ox₁ = ox₂ := by
    cases ox₁
    cases ox₂
    simp_all
  rw [hox]

/-- Witness for C6: two runs on the concrete trivial oracle and the test
catalog coincide. -/
theorem generate_routes_two_runs_witness :
    oxTrivial.dist = oxTrivial.dist ∧
    generate_routes oxTrivial testCatalog 3 2 80000
      = generate_routes oxTrivial testCatalog 3 2 80000 :=
  ⟨rfl, generate_routes_two_runs oxTrivial oxTrivial rfl rfl rfl rfl
    testCatalog 3 2 80000⟩

/-- Any round-to-nearest to `k` decimal places is within half a unit in
the last place. -/
lemma roundTo_sub_abs_le (k : ℕ) (x : ℚ) :
    |roundTo k x - x| ≤ 1 / (2 * 10 ^ k) := by
  have hpow : (0 : ℚ) < 10 ^ k := by positivity
  have h := abs_sub_round (x * (10 : ℚ) ^ k)
  rw [roundTo, show (round (x * (10 : ℚ) ^ k) : ℚ) / 10 ^ k - x
    = -((x * (10 : ℚ) ^ k - (round (x * (10 : ℚ) ^ k) : ℚ)) / 10 ^ k) by
      field_simp
      ring]
  rw [abs_neg, abs_div, abs_of_pos hpow]
  rw [div_le_div_iff hpow (by positivity)]
  calc |x * (10 : ℚ) ^ k - (round (x * (10 : ℚ) ^ k) : ℚ)| * (2 * 10 ^ k)
      ≤ (1 / 2) * (2 * 10 ^ k) := by
        apply mul_le_mul_of_nonneg_right h
        positivity
    _ = 1 * 10 ^ k := by ring

/-- C7: among routes with equal total distance and equal total cost whose
stored mean fragilities lie on the two-decimal grid (as every route built
by `_create_route_from_locations` does, its `fragilidade_media` being
rounded to 2 decimals), the route with strictly greater mean fragility
receives a strictly greater stored score from `_calculate_route_scores`,
the score being `0.45·meanFragility + 0.35·(km/1000) + 0.20·(AOA/100000)`
rounded to 3 decimals. -/
theorem route_score_strict_mono (r1 r2 : RouteData) (k1 k2 : ℤ)
    (h1 : r1.fragilidade_media = (k1 : ℚ) / 100)
    (h2 : r2.fragilidade_media = (k2 : ℚ) / 100)
    (hd : r1.distancia_total_km = r2.distancia_total_km)
    (hc : r1.custo_total_aoa = r2.custo_total_aoa)
    (hlt : r1.fragilidade_media < r2.fragilidade_media) :
    ∀ q1 ∈ _calculate_route_scores [r1], ∀ q2 ∈ _calculate_route_scores [r2],
      q1.score < q2.score := by
  intro q1 hq1 q2 hq2
  simp only [_calculate_route_scores, List.map_cons, List.map_nil,
    List.mem_singleton] at hq1 hq2
  subst hq1
  subst hq2
  change roundTo 3 (score_weight_fragilidade * r1.fragilidade_media
    + score_weight_distancia * (r1.distancia_total_km / 1000)
    + score_weight_custo * (r1.custo_total_aoa / 100000)) < roundTo 3
    (score_weight_fragilidade * r2.fragilidade_media
    + score_weight_distancia * (r2.distancia_total_km / 1000)
    + score_weight_custo * (r2.custo_total_aoa / 100000))
  set x1 := score_weight_fragilidade * r1.fragilidade_media
    + score_weight_distancia * (r1.distancia_total_km / 1000)
    + score_weight_custo * (r1.custo_total_aoa / 100000) with hx1
  set x2 := score_weight_fragilidade * r2.fragilidade_media
    + score_weight_distancia * (r2.distancia_total_km / 1000)
    + score_weight_custo * (r2.custo_total_aoa / 100000) with hx2
  have hk12 : k1 < k2 := by
    rw [h1, h2, div_lt_div_iff (by norm_num) (by norm_num)] at hlt
    exact_mod_cast (by linarith : (k1 : ℚ) < k2)
  have hgap : (1 : ℚ) ≤ (k2 : ℚ) - (k1 : ℚ) := by
    have : (k1 : ℚ) + 1 ≤ k2 := by exact_mod_cast hk12
    linarith
  have hdiff : x2 - x1 = (45 / 100) * (((k2 : ℚ) - k1) / 100) := by
    rw [hx1, hx2, h1, h2, hd, hc]
    simp only [score_weight_fragilidade]
    ring
  have b1 := roundTo_sub_abs_le 3 x1
  have b2 := roundTo_sub_abs_le 3 x2
  rw [abs_le] at b1 b2
  have hnum : (1 : ℚ) / (2 * 10 ^ 3) = 1 / 2000 := by norm_num
  rw [hnum] at b1 b2
  have hx21 : x2 - x1 ≥ 45 / 10000 := by
    rw [hdiff]
    nlinarith
  linarith [b1.1, b1.2, b2.1, b2.2]

/-- Witness for C7 at two concrete routes with equal distance and cost and
mean fragilities `3.00` and `3.01`. -/
theorem route_score_strict_mono_witness :
    routeValid1.fragilidade_media
      < ({ routeValid1 with fragilidade_media := 301 / 100 } :
          RouteData).fragilidade_media ∧
    ∀ q1 ∈ _calculate_route_scores [routeValid1],
      ∀ q2 ∈ _calculate_route_scores
        [{ routeValid1 with fragilidade_media := 301 / 100 }],
        q1.score < q2.score :=
  ⟨by norm_num [routeValid1],
    route_score_strict_mono routeValid1
      { routeValid1 with fragilidade_media := 301 / 100 } 300 301
      (by norm_num [routeValid1]) (by norm_num [routeValid1]) rfl rfl
      (by norm_num [routeValid1])⟩

/-- The selection step never returns more than `num_routes` candidates. -/
lemma select_best_routes_length_le (scored_routes : List RouteData)
    (num_routes : ℕ) :
    (_select_best_routes scored_routes num_routes).length ≤ num_routes := by
  rw [_select_best_routes]
  split
  · simp
  · calc ((scored_routes.insertionSort (fun a b => a.score ≤ b.score)).take
        num_routes |>.filter (fun route => validate_route_data route.locais)).length
        ≤ ((scored_routes.insertionSort (fun a b => a.score ≤ b.score)).take
          num_routes).length := List.length_filter_le _ _
    _ ≤ num_routes := by
        rw [List.length_take]
        exact min_le_left _ _

/-- C9: `generate_routes` returns at most `num_routes` candidates; and
because `_select_best_routes` validates only after truncating the sorted
pool to the top `num_routes`, a candidate dropped by validation is not
replaced — on the concrete pool `poolWithInvalidBest` (whose best-scored
candidate has an empty site list) it returns 1 route for `num_routes = 2`
even though the pool holds 2 valid candidates. -/
theorem generate_routes_truncation :
    (∀ (ox : Oracles) (df : List Site) (max_locations num_routes : ℕ)
      (max_budget : ℚ),
      (generate_routes ox df max_locations num_routes max_budget).length
        ≤ num_routes) ∧
    (_select_best_routes poolWithInvalidBest 2).length = 1 ∧
    (poolWithInvalidBest.filter
      (fun route => validate_route_data route.locais)).length = 2 := by
  refine ⟨?_, by decide, by decide⟩
  intro ox df max_locations num_routes max_budget
  rw [generate_routes]
  split
  · simp
  · exact select_best_routes_length_le _ _

/-- The `take`-based sampling oracle satisfies the sampling contract. -/
lemma sampleOK_take : SampleOK (fun df n _ => df.take n) := by
  intro df n seed
  exact ⟨List.length_take n df, (List.take_sublist n df).subperm⟩

/-- Rounding to `k` decimal places is monotone. -/
lemma roundTo_mono (k : ℕ) {x y : ℚ} (h : x ≤ y) : roundTo k x ≤ roundTo k y := by
  have hpow : (0 : ℚ) < 10 ^ k := by positivity
  have hr : round (x * (10 : ℚ) ^ k) ≤ round (y * (10 : ℚ) ^ k) := by
    rw [round_eq, round_eq]
    have hm := mul_le_mul_of_nonneg_right h hpow.le
    exact Int.floor_mono (by linarith)
  rw [roundTo, roundTo]
  exact (div_le_div_right hpow).mpr (by exact_mod_cast hr)

/-- Rounding an integer to `k` decimal places returns it unchanged. -/
lemma roundTo_intCast (k : ℕ) (m : ℤ) : roundTo k ((m : ℚ)) = (m : ℚ) := by
  have h : (m : ℚ) * (10 : ℚ) ^ k = ((m * 10 ^ k : ℤ) : ℚ) := by
    push_cast
    ring
  rw [roundTo, h, round_intCast]
  have hpow : ((10 : ℚ)) ^ k ≠ 0 := by positivity
  push_cast
  field_simp

/-- Invariants of a successfully created route (route_optimizer.py
233-287): cost within budget, mean fragility bounded by any integer bound
on the input fragilities, exactly as many sites as input rows (hence at
least one), and no duplicate sites. -/
lemma create_route_invariants (ox : Oracles) (cluster_id : ℕ)
    (locations_df : List Site) (max_budget : ℚ) (maxF : ℤ)
    (hnd : locations_df.Nodup)
    (hfr : ∀ s ∈ locations_df, s.fragilidade ≤ (maxF : ℚ))
    (r : RouteData)
    (h : _create_route_from_locations ox cluster_id locations_df max_budget
      = some r) :
    r.custo_total_aoa ≤ max_budget ∧ r.fragilidade_media ≤ (maxF : ℚ) ∧
    r.num_locais = locations_df.length ∧ 1 ≤ r.num_locais ∧
    r.locais.Nodup := by
  simp only [_create_route_from_locations] at h
  by_cases hb : max_budget < (locations_df.map (·.taxa_aoa)).sum
  · rw [if_pos hb] at h
    exact Option.noConfusion h
  rw [if_neg hb] at h
  by_cases he : locations_df.isEmpty
  · rw [if_pos he] at h
    exact Option.noConfusion h
  rw [if_neg he] at h
  have hne : locations_df ≠ [] := by
    intro hx
    rw [hx] at he
    exact he rfl
  have hlen0 : 0 < locations_df.length := List.length_pos.mpr hne
  have hclen : (locations_df.map (fun loc => (loc.latitude, loc.longitude))).length
      = locations_df.length := List.length_map _ _
  obtain ⟨hindnd, hindlt, hindlen⟩ := nearest_neighbor_route_nodup ox.dist
    (locations_df.map (fun loc => (loc.latitude, loc.longitude))) 0
    (by rw [hclen]; exact hlen0)
  obtain rfl := Option.some.inj h
  set indices := nearest_neighbor_route ox.dist
    (locations_df.map (fun loc => (loc.latitude, loc.longitude))) 0 with hind
  set optimized := indices.map (fun i => locations_df.getD i default)
    with hopt
  have hoptlen : optimized.length = locations_df.length := by
    rw [hopt, List.length_map, hindlen, hclen]
  have hmem : ∀ s ∈ optimized, s ∈ locations_df := by
    intro s hs
    obtain ⟨i, hi, rfl⟩ := List.mem_map.mp hs
    have hilt : i < locations_df.length := by
      rw [← hclen]
      exact hindlt i hi
    rw [List.getD_eq_get _ _ hilt]
    exact List.get_mem _ _ _
  refine ⟨not_lt.mp hb, ?_, hoptlen, ?_, ?_⟩
  · show roundTo 2 ((optimized.map (·.fragilidade)).sum / optimized.length)
      ≤ (maxF : ℚ)
    have hcast : (0 : ℚ) < (optimized.length : ℚ) := by
      rw [hoptlen]
      exact_mod_cast hlen0
    have hsum : (optimized.map (·.fragilidade)).sum
        ≤ (optimized.map (·.fragilidade)).length • (maxF : ℚ) := by
      apply List.sum_le_card_nsmul
      intro x hx
      obtain ⟨s, hs, rfl⟩ := List.mem_map.mp hx
      exact hfr s (hmem s hs)
    have hdiv : (optimized.map (·.fragilidade)).sum / (optimized.length : ℚ)
        ≤ (maxF : ℚ) := by
      rw [div_le_iff hcast]
      calc (optimized.map (·.fragilidade)).sum
          ≤ (optimized.map (·.fragilidade)).length • (maxF : ℚ) := hsum
        _ = (optimized.length : ℚ) * (maxF : ℚ) := by
            rw [List.length_map, nsmul_eq_mul]
        _ = (maxF : ℚ) * (optimized.length : ℚ) := mul_comm _ _
    calc roundTo 2 ((optimized.map (·.fragilidade)).sum / optimized.length)
        ≤ roundTo 2 ((maxF : ℚ)) := roundTo_mono 2 hdiv
      _ = (maxF : ℚ) := roundTo_intCast 2 maxF
  · show 1 ≤ optimized.length
    rw [hoptlen]
    omega
  · show optimized.Nodup
    rw [hopt]
    apply List.Nodup.map_on ?_ hindnd
    intro i hi j hj heq
    have hilt : i < locations_df.length := by
      rw [← hclen]
      exact hindlt i hi
    have hjlt : j < locations_df.length := by
      rw [← hclen]
      exact hindlt j hj
    rw [List.getD_eq_get _ _ hilt, List.getD_eq_get _ _ hjlt] at heq
    exact congrArg Fin.val (List.nodup_iff_injective_get.mp hnd heq)

/-- A sample drawn under the sampling contract from a duplicate-free frame
is duplicate-free, drawn from the frame, and of length `min n`. -/
lemma sample_props {sample : List Site → ℕ → ℕ → List Site}
    (hok : SampleOK sample) {df : List Site} (hnd : df.Nodup) (n seed : ℕ) :
    (sample df n seed).Nodup ∧ (∀ s ∈ sample df n seed, s ∈ df) ∧
    (sample df n seed).length = min n df.length := by
  obtain ⟨hlen, hsub⟩ := hok df n seed
  refine ⟨?_, hsub.subset, hlen⟩
  obtain ⟨l, hperm, hsl⟩ := hsub
  exact hperm.nodup_iff.mp (hsl.nodup hnd)

/-- Invariants of the routes produced by the random-subset attempts. -/
lemma sampleAttempts_invariants (ox : Oracles) (cluster_id : ℕ)
    (cluster_df : List Site) (max_locations : ℕ) (max_budget : ℚ)
    (maxF : ℤ) (hsample : SampleOK ox.sample) (hnd : cluster_df.Nodup)
    (hfr : ∀ s ∈ cluster_df, s.fragilidade ≤ (maxF : ℚ)) :
    ∀ (k ctr : ℕ),
    ∀ r ∈ (sampleAttempts ox cluster_id cluster_df max_locations max_budget
      k ctr).1,
      r.custo_total_aoa ≤ max_budget ∧ r.fragilidade_media ≤ (maxF : ℚ) ∧
      1 ≤ r.num_locais ∧ r.num_locais ≤ max_locations ∧ r.locais.Nodup
  | 0, ctr => by
    intro r hr
    simp [sampleAttempts] at hr
  | k + 1, ctr => by
    intro r hr
    rw [sampleAttempts] at hr
    obtain ⟨hsnd, hsmem, hslen⟩ := sample_props hsample hnd
      (min max_locations cluster_df.length) (ox.randint ctr)
    rcases hcr : _create_route_from_locations ox cluster_id
        (ox.sample cluster_df (min max_locations cluster_df.length)
          (ox.randint ctr)) max_budget with - | route
    · rw [hcr] at hr
      exact sampleAttempts_invariants ox cluster_id cluster_df max_locations
        max_budget maxF hsample hnd hfr k (ctr + 1) r hr
    · rw [hcr] at hr
      rcases List.mem_cons.mp hr with heq | hr'
      · obtain ⟨hc, hf, hn, h1, hdup⟩ := create_route_invariants ox cluster_id
          _ max_budget maxF hsnd (fun s hs => hfr s (hsmem s hs)) route hcr
        subst heq
        refine ⟨hc, hf, h1, ?_, hdup⟩
        rw [hn, hslen]
        omega
      · exact sampleAttempts_invariants ox cluster_id cluster_df max_locations
          max_budget maxF hsample hnd hfr k (ctr + 1) r hr'

/-- Invariants of the routes produced for one cluster. -/
lemma cluster_routes_invariants (ox : Oracles) (cluster_id ctr : ℕ)
    (cluster_df : List Site) (max_locations : ℕ) (max_budget : ℚ)
    (maxF : ℤ) (hsample : SampleOK ox.sample) (hnd : cluster_df.Nodup)
    (hfr : ∀ s ∈ cluster_df, s.fragilidade ≤ (maxF : ℚ)) :
    ∀ r ∈ (_generate_cluster_routes ox cluster_id ctr cluster_df
      max_locations max_budget).1,
      r.custo_total_aoa ≤ max_budget ∧ r.fragilidade_media ≤ (maxF : ℚ) ∧
      1 ≤ r.num_locais ∧ r.num_locais ≤ max_locations ∧ r.locais.Nodup := by
  intro r hr
  rw [_generate_cluster_routes] at hr
  by_cases hsize : cluster_df.length ≤ max_locations
  · rw [if_pos hsize] at hr
    rcases hcr : _create_route_from_locations ox cluster_id cluster_df
        max_budget with - | route
    · rw [hcr] at hr
      simp at hr
    · rw [hcr] at hr
      simp only [List.mem_singleton] at hr
      obtain ⟨hc, hf, hn, h1, hdup⟩ := create_route_invariants ox cluster_id
        cluster_df max_budget maxF hnd hfr route hcr
      subst hr
      exact ⟨hc, hf, h1, by omega, hdup⟩
  · rw [if_neg hsize] at hr
    exact sampleAttempts_invariants ox cluster_id cluster_df max_locations
      max_budget maxF hsample hnd hfr _ ctr r hr

/-- Projection of a zip onto its first components is a sublist of the
first list. -/
lemma zip_map_fst_sublist {α β : Type} : ∀ (l₁ : List α) (l₂ : List β),
    ((l₁.zip l₂).map Prod.fst).Sublist l₁
  | [], _ => by simp
  | _ :: _, [] => by simp
  | a :: l₁, b :: l₂ => by
    simp only [List.zip_cons_cons, List.map_cons]
    exact (zip_map_fst_sublist l₁ l₂).cons₂ a

/-- Every cluster extracted from the clustered frame is a sublist of the
catalog. -/
lemma cluster_extract_sublist (ox : Oracles) (df : List Site) (cid : ℕ) :
    (((_create_geographic_clusters ox df).filter
      (fun p => p.2 == cid)).map Prod.fst).Sublist df := by
  have h1 : (((_create_geographic_clusters ox df).filter
      (fun p => p.2 == cid)).map Prod.fst).Sublist
      ((_create_geographic_clusters ox df).map Prod.fst) :=
    (List.filter_sublist _).map _
  apply h1.trans
  have hmap : ((df.map (fun s : Site => (s, 0))).map Prod.fst).Sublist df := by
    rw [List.map_map]
    have h : (Prod.fst ∘ fun s : Site => (s, 0)) = id := rfl
    rw [h, List.map_id]
  rw [_create_geographic_clusters]
  split
  · split
    · exact hmap
    · exact zip_map_fst_sublist df _
  · split
    · exact hmap
    · exact zip_map_fst_sublist df _

/-- Membership in the per-cluster fold of `generate_routes`. -/
lemma mem_cluster_fold (ox : Oracles) (df_clustered : List (Site × ℕ))
    (max_locations : ℕ) (max_budget : ℚ) :
    ∀ (ids : List ℕ) (acc : List RouteData × ℕ) (r : RouteData),
    r ∈ (ids.foldl (fun acc cid =>
      let cluster_df := (df_clustered.filter (fun p => p.2 == cid)).map Prod.fst
      let step := _generate_cluster_routes ox cid acc.2 cluster_df
        max_locations max_budget
      (acc.1 ++ step.1, step.2)) acc).1 →
    r ∈ acc.1 ∨ ∃ cid ctr, r ∈ (_generate_cluster_routes ox cid ctr
      ((df_clustered.filter (fun p => p.2 == cid)).map Prod.fst)
      max_locations max_budget).1
  | [], acc, r => fun h => Or.inl h
  | cid :: ids, acc, r => fun h => by
    rcases mem_cluster_fold ox df_clustered max_locations max_budget ids _ r h
      with h1 | h1
    · rcases List.mem_append.mp h1 with h2 | h2
      · exact Or.inl h2
      · exact Or.inr ⟨cid, acc.2, h2⟩
    · exact Or.inr h1

/-- Selected routes come from the scored pool. -/
lemma select_best_routes_subset (scored_routes : List RouteData)
    (num_routes : ℕ) :
    ∀ r ∈ _select_best_routes scored_routes num_routes, r ∈ scored_routes := by
  intro r hr
  rw [_select_best_routes] at hr
  split at hr
  · exact absurd hr (List.not_mem_nil r)
  · have h1 := List.mem_filter.mp hr
    have h2 := List.take_subset _ _ h1.1
    exact (List.perm_insertionSort _ scored_routes).subset h2

/-- A scored route is a source route with only its `score` updated. -/
lemma mem_calculate_route_scores (routes : List RouteData) (q : RouteData)
    (hq : q ∈ _calculate_route_scores routes) :
    ∃ r ∈ routes, q.custo_total_aoa = r.custo_total_aoa ∧
      q.fragilidade_media = r.fragilidade_media ∧
      q.num_locais = r.num_locais ∧ q.locais = r.locais := by
  rw [_calculate_route_scores] at hq
  obtain ⟨r, hr, rfl⟩ := List.mem_map.mp hq
  exact ⟨r, hr, rfl, rfl, rfl, rfl⟩

/-- C1 amended: on a duplicate-free catalog whose site fragilities are all
bounded by an integer `maxF`, every candidate returned by
`generate_routes` has total cost at most the budget, mean fragility at
most `maxF`, between 1 and `max_locations` sites, and no duplicate
sites. -/
theorem generate_routes_invariants (ox : Oracles) (df : List Site)
    (maxF : ℤ) (max_locations num_routes : ℕ) (max_budget : ℚ)
    (hsample : SampleOK ox.sample) (hnd : df.Nodup)
    (hfr : ∀ s ∈ df, s.fragilidade ≤ (maxF : ℚ)) :
    ∀ r ∈ generate_routes ox df max_locations num_routes max_budget,
      r.custo_total_aoa ≤ max_budget ∧ r.fragilidade_media ≤ (maxF : ℚ) ∧
      1 ≤ r.num_locais ∧ r.num_locais ≤ max_locations ∧ r.locais.Nodup := by
  intro r hr
  rw [generate_routes] at hr
  split at hr
  · exact absurd hr (List.not_mem_nil r)
  · have hsel := select_best_routes_subset _ _ r hr
    obtain ⟨r₀, hr₀, hcost, hfrag, hnum, hloc⟩ :=
      mem_calculate_route_scores _ r hsel
    rcases mem_cluster_fold ox (_create_geographic_clusters ox df)
        max_locations max_budget _ _ r₀ hr₀ with h1 | ⟨cid, ctr, h1⟩
    · exact absurd h1 (List.not_mem_nil r₀)
    · have hsl := cluster_extract_sublist ox df cid
      obtain ⟨hc, hf, h1le, hle, hdup⟩ := cluster_routes_invariants ox cid ctr
        _ max_locations max_budget maxF hsample (hsl.nodup hnd)
        (fun s hs => hfr s (hsl.subset hs)) r₀ h1
      rw [hcost, hfrag, hnum, hloc]
      exact ⟨hc, hf, h1le, hle, hdup⟩

/-- Mapping `getD` over `range` recovers the list. -/
lemma map_getD_range {α : Type} (d : α) : ∀ (xs : List α),
    (List.range xs.length).map (fun i => xs.getD i d) = xs
  | [] => rfl
  | x :: xs => by
    rw [List.length_cons, List.range_succ_eq_map, List.map_cons]
    congr 1
    rw [List.map_map]
    have h : ((fun i => (x :: xs).getD i d) ∘ Nat.succ)
        = fun i => xs.getD i d := by
      funext i
      simp [Function.comp]
    rw [h]
    exact map_getD_range d xs

/-- In a created route, `num_locais` is the length of `locais`. -/
lemma create_route_num_locais (ox : Oracles) (cluster_id : ℕ)
    (locations_df : List Site) (max_budget : ℚ) (r : RouteData)
    (h : _create_route_from_locations ox cluster_id locations_df max_budget
      = some r) : r.num_locais = r.locais.length := by
  simp only [_create_route_from_locations] at h
  split at h
  · exact Option.noConfusion h
  split at h
  · exact Option.noConfusion h
  obtain rfl := Option.some.inj h
  rfl

/-- Selecting two routes from a singleton pool of valid routes keeps it. -/
lemma select_best_routes_singleton_valid (q : RouteData)
    (hq : q.locais ≠ []) : _select_best_routes [q] 2 = [q] := by
  rw [_select_best_routes, if_neg (by simp)]
  simp [List.insertionSort, List.orderedInsert, validate_route_data,
    List.isEmpty_iff, hq]

/-- C1 counterexample: on the valid one-site catalog `[siteA]` (fragility
`3 ≤ 4`, duplicate-free, well-behaved sampling oracle), `generate_routes`
returns a candidate with a single site, refuting the claimed lower bound
of 2 sites per candidate. -/
theorem generate_routes_min_two_cex :
    SampleOK oxTrivial.sample ∧ ([siteA] : List Site).Nodup ∧
    (∀ s ∈ ([siteA] : List Site), s.fragilidade ≤ ((4 : ℤ) : ℚ)) ∧
    ¬ (∀ r ∈ generate_routes oxTrivial [siteA] 3 2 1000,
        2 ≤ r.num_locais) := by
  refine ⟨sampleOK_take, List.nodup_singleton _, ?_, ?_⟩
  · intro s hs
    rw [List.mem_singleton] at hs
    subst hs
    norm_num [siteA]
  · intro hall
    have h1 : ¬ ((1000 : ℚ) < (([siteA] : List Site).map (·.taxa_aoa)).sum) := by
      simp [siteA]
      norm_num
    rcases hcr : _create_route_from_locations oxTrivial 0 [siteA] 1000
        with - | r
    · simp only [_create_route_from_locations, if_neg h1] at hcr
      rw [if_neg (by decide)] at hcr
      exact Option.noConfusion hcr
    · have hpipe : generate_routes oxTrivial [siteA] 3 2 1000
          = _select_best_routes (_calculate_route_scores
              (_generate_cluster_routes oxTrivial 0 0 [siteA] 3 1000).1) 2 :=
        rfl
      have hcl : (_generate_cluster_routes oxTrivial 0 0 [siteA] 3 1000).1
          = [r] := by
        rw [_generate_cluster_routes,
          if_pos (by decide : ([siteA] : List Site).length ≤ 3), hcr]
      obtain ⟨-, -, hn, h1le, -⟩ := create_route_invariants oxTrivial 0 [siteA]
        1000 4 (List.nodup_singleton _)
        (by
          intro s hs
          rw [List.mem_singleton] at hs
          subst hs
          norm_num [siteA])
        r hcr
      have hnl : r.locais ≠ [] := by
        intro hx
        have := create_route_num_locais oxTrivial 0 [siteA] 1000 r hcr
        rw [hx] at this
        simp at this
        omega
      have hscored : _calculate_route_scores [r]
          = [{ r with score := roundTo 3 (score_weight_fragilidade
              * r.fragilidade_media
              + score_weight_distancia * (r.distancia_total_km / 1000)
              + score_weight_custo * (r.custo_total_aoa / 100000)) }] := rfl
      have hfinal : generate_routes oxTrivial [siteA] 3 2 1000
          = [{ r with score := roundTo 3 (score_weight_fragilidade
              * r.fragilidade_media
              + score_weight_distancia * (r.distancia_total_km / 1000)
              + score_weight_custo * (r.custo_total_aoa / 100000)) }] := by
        rw [hpipe, hcl, hscored]
        exact select_best_routes_singleton_valid _ hnl
      have hmem := hall _ (by
        rw [hfinal]
        exact List.mem_singleton.mpr rfl)
      have : r.num_locais = 1 := by
        rw [hn]
        rfl
      simp only [this] at hmem
      omega

/-- Witness for the C1 invariants at the concrete two-site catalog. -/
theorem generate_routes_invariants_witness :
    SampleOK oxTrivial.sample ∧ ([siteA, siteB] : List Site).Nodup ∧
    (∀ s ∈ ([siteA, siteB] : List Site), s.fragilidade ≤ ((4 : ℤ) : ℚ)) ∧
    ∀ r ∈ generate_routes oxTrivial [siteA, siteB] 3 2 1000,
      r.custo_total_aoa ≤ 1000 ∧ r.fragilidade_media ≤ ((4 : ℤ) : ℚ) ∧
      1 ≤ r.num_locais ∧ r.num_locais ≤ 3 ∧ r.locais.Nodup := by
  have hnd : ([siteA, siteB] : List Site).Nodup := by
    simp [List.nodup_cons, siteA, siteB]
  have hfr : ∀ s ∈ ([siteA, siteB] : List Site),
      s.fragilidade ≤ ((4 : ℤ) : ℚ) := by
    intro s hs
    rcases List.mem_cons.mp hs with rfl | hs
    · norm_num [siteA]
    · rw [List.mem_singleton] at hs
      subst hs
      norm_num [siteB]
  exact ⟨sampleOK_take, hnd, hfr,
    generate_routes_invariants oxTrivial [siteA, siteB] 4 3 2 1000
      sampleOK_take hnd hfr⟩

/-- Shape of a successfully created route: its cost is the sum of the
input prices and its site list is the input reordered by the
nearest-neighbour tour from index 0. -/
lemma create_route_shape (ox : Oracles) (cluster_id : ℕ)
    (locations_df : List Site) (max_budget : ℚ) (r : RouteData)
    (h : _create_route_from_locations ox cluster_id locations_df max_budget
      = some r) :
    r.custo_total_aoa = (locations_df.map (·.taxa_aoa)).sum ∧
    r.locais = (nearest_neighbor_route ox.dist
      (locations_df.map (fun loc => (loc.latitude, loc.longitude))) 0).map
      (fun i => locations_df.getD i default) := by
  simp only [_create_route_from_locations] at h
  split at h
  · exact Option.noConfusion h
  split at h
  · exact Option.noConfusion h
  obtain rfl := Option.some.inj h
  exact ⟨rfl, rfl⟩

/-- The Scenario A catalog prices sum to 70000 AOA. -/
lemma testCatalog_total_cost : ((testCatalog.map (·.taxa_aoa)).sum) = 70000 := by
  simp [testCatalog, kissama, kalandula, iona]
  norm_num

/-- C3 (Scenario A): on the 3-site catalog with prices 25000, 15000,
30000 AOA and fragilities 3, 2, 4, `generate_routes` with budget 50000
and `max_locations = 3` returns no candidate (the total cost 70000
exceeds the budget); with budget 80000 it returns exactly one candidate
containing all 3 sites — the catalog reordered by the nearest-neighbour
tour starting at index 0 — with total cost 70000. -/
theorem scenario_A_routes (ox : Oracles) :
    generate_routes ox testCatalog 3 2 50000 = [] ∧
    (generate_routes ox testCatalog 3 2 80000).length = 1 ∧
    ∀ r ∈ generate_routes ox testCatalog 3 2 80000,
      r.custo_total_aoa = 70000 ∧
      r.locais = (nearest_neighbor_route ox.dist testCoords 0).map
        (fun i => testCatalog.getD i default) ∧
      r.locais.Perm testCatalog := by
  have hpipe : ∀ B : ℚ, generate_routes ox testCatalog 3 2 B
      = _select_best_routes (_calculate_route_scores
          (_generate_cluster_routes ox 0 0 testCatalog 3 B).1) 2 :=
    fun B => rfl
  have hfit : (testCatalog : List Site).length ≤ 3 := by decide
  constructor
  · -- budget 50000: the single candidate is rejected by the budget filter
    have hcr : _create_route_from_locations ox 0 testCatalog 50000 = none := by
      simp only [_create_route_from_locations]
      rw [if_pos (by
        rw [testCatalog_total_cost]
        norm_num)]
    have hcl : (_generate_cluster_routes ox 0 0 testCatalog 3 50000).1
        = [] := by
      rw [_generate_cluster_routes, if_pos hfit, hcr]
    rw [hpipe 50000, hcl]
    rfl
  · -- budget 80000: the single candidate survives
    rcases hcr : _create_route_from_locations ox 0 testCatalog 80000
        with - | r
    · exfalso
      simp only [_create_route_from_locations] at hcr
      rw [if_neg (by
        rw [testCatalog_total_cost]
        norm_num), if_neg (by decide)] at hcr
      exact Option.noConfusion hcr
    · have hcl : (_generate_cluster_routes ox 0 0 testCatalog 3 80000).1
          = [r] := by
        rw [_generate_cluster_routes, if_pos hfit, hcr]
      obtain ⟨-, -, hn, h1le, -⟩ := create_route_invariants ox 0 testCatalog
        80000 4
        (by simp [testCatalog, List.nodup_cons, kissama, kalandula, iona])
        (by
          intro s hs
          fin_cases hs <;> norm_num [kissama, kalandula, iona])
        r hcr
      have hnl : r.locais ≠ [] := by
        intro hx
        have hq := create_route_num_locais ox 0 testCatalog 80000 r hcr
        rw [hx] at hq
        simp at hq
        rw [hq] at hn
        simp [testCatalog] at hn
      have hfinal : generate_routes ox testCatalog 3 2 80000
          = [{ r with score := roundTo 3 (score_weight_fragilidade
              * r.fragilidade_media
              + score_weight_distancia * (r.distancia_total_km / 1000)
              + score_weight_custo * (r.custo_total_aoa / 100000)) }] := by
        rw [hpipe 80000, hcl,
          show _calculate_route_scores [r]
            = [{ r with score := roundTo 3 (score_weight_fragilidade
                * r.fragilidade_media
                + score_weight_distancia * (r.distancia_total_km / 1000)
                + score_weight_custo * (r.custo_total_aoa / 100000)) }]
            from rfl]
        exact select_best_routes_singleton_valid _ hnl
      obtain ⟨hcost, hloc⟩ := create_route_shape ox 0 testCatalog 80000 r hcr
      refine ⟨by rw [hfinal]; rfl, ?_⟩
      intro q hq
      rw [hfinal, List.mem_singleton] at hq
      subst hq
      refine ⟨?_, ?_, ?_⟩
      · show r.custo_total_aoa = 70000
        rw [hcost, testCatalog_total_cost]
      · exact hloc
      · show r.locais.Perm testCatalog
        rw [hloc]
        have hperm := nearest_neighbor_route_perm ox.dist
          (testCatalog.map (fun loc => (loc.latitude, loc.longitude))) 0
          (by decide)
        have h2 : ((List.range testCatalog.length).map
            (fun i => testCatalog.getD i default)) = testCatalog :=
          map_getD_range default testCatalog
        have h3 := hperm.map (fun i => testCatalog.getD i default)
        rw [List.length_map] at h3
        rw [h2] at h3
        exact h3

end EcoRota
